import Mathlib

/-!
# Verification of the diagnostic-log analysis core

Shallow embedding of the repository's core chain — file-type
classification, transaction boundary extraction, UI-event parsing,
time-window flow correlation and LCS sequence alignment — together with
proofs of the specified properties.

The transaction extractor is embedded from
`modules/transaction_analyzer.py` (the draft imported by the API routes),
the classifier from `configManager.py` and `categorization.py`, the UI
event parser from `ui_journal_processor.py`, and the aligner from the
`find_lcs_matches` closure of `routes.py`.
-/

namespace LogCore

/-! ## Character classes and basic scanning helpers

Python `re` character classes: `\d`, `\s` (ASCII portion) and `\w`. -/

def isDigitCh (c : Char) : Bool := c.isDigit

/-- Python `\s` (the characters stripped by `str.strip()` on ASCII text). -/
def isPyWs (c : Char) : Bool :=
  c == ' ' || c == '\t' || c == '\n' || c == '\x0d' || c == '\x0b' || c == '\x0c'

/-- Python `\w` on ASCII text: letters, digits and underscore. -/
def isWordCh (c : Char) : Bool := c.isAlphanum || c == '_'

def isHexCh (c : Char) : Bool :=
  c.isDigit || ('a' ≤ c && c ≤ 'f') || ('A' ≤ c && c ≤ 'F')

/-- `str.strip()`: drop leading and trailing whitespace. -/
def trimChars (cs : List Char) : List Char :=
  ((cs.dropWhile isPyWs).reverse.dropWhile isPyWs).reverse

def stripStr (s : String) : String := String.mk (trimChars s.data)

/-- Does `pat` occur at the start of `cs`? (`list` prefix test). -/
def startsWithSeq : List Char → List Char → Bool
  | [], _ => true
  | _ :: _, [] => false
  | p :: ps, c :: cs => p == c && startsWithSeq ps cs

/-- Does `pat` occur anywhere inside `cs`? (substring containment). -/
def containsSeq (pat : List Char) : List Char → Bool
  | [] => startsWithSeq pat []
  | c :: cs => startsWithSeq pat (c :: cs) || containsSeq pat cs

def strContains (s pat : String) : Bool := containsSeq pat.data s.data

/-- Parse exactly two digits, returning their value. -/
def parse2Digits : List Char → Option (Nat × List Char)
  | c1 :: c2 :: rest =>
    if isDigitCh c1 && isDigitCh c2 then
      some ((c1.toNat - 48) * 10 + (c2.toNat - 48), rest)
    else none
  | _ => none

def expectCh (c : Char) : List Char → Option (List Char)
  | x :: rest => if x == c then some rest else none
  | [] => none

/-- Maximal run of characters satisfying `p` (greedy munch). -/
def spanP (p : Char → Bool) (cs : List Char) : List Char × List Char :=
  (cs.takeWhile p, cs.dropWhile p)

/-- `\s+`: at least one whitespace character, maximal munch. -/
def parseWs1 (cs : List Char) : Option (List Char) :=
  let (ws, rest) := spanP isPyWs cs
  if ws.isEmpty then none else some rest

/-- `\d+`: at least one digit, maximal munch; returns the digit characters. -/
def parseDigits1 (cs : List Char) : Option (List Char × List Char) :=
  let (ds, rest) := spanP isDigitCh cs
  if ds.isEmpty then none else some (ds, rest)

/-- `\w+`: at least one word character, maximal munch. -/
def parseWord1 (cs : List Char) : Option (List Char × List Char) :=
  let (ws, rest) := spanP isWordCh cs
  if ws.isEmpty then none else some (ws, rest)

/-! ## Times of day

`datetime.strptime(ts, "%H:%M:%S").time()`: the embedding keeps the three
fields; parsing validates ranges exactly as `strptime` does. -/

structure Hms where
  h : Nat
  m : Nat
  s : Nat
deriving DecidableEq

def Hms.toSecs (t : Hms) : Nat := t.h * 3600 + t.m * 60 + t.s

def pad2 (n : Nat) : String := if n < 10 then "0" ++ toString n else toString n

/-- `time.strftime("%H%M%S")`. -/
def Hms.compact (t : Hms) : String := pad2 t.h ++ pad2 t.m ++ pad2 t.s

/-- `time.strftime("%H:%M:%S")`. -/
def Hms.clock (t : Hms) : String := pad2 t.h ++ ":" ++ pad2 t.m ++ ":" ++ pad2 t.s

/-- `\d{2}:\d{2}:\d{2}` as a shape, returning the raw field values. -/
def parseTimeShape (cs : List Char) : Option (Nat × Nat × Nat × List Char) := do
  let (h, cs) ← parse2Digits cs
  let cs ← expectCh ':' cs
  let (m, cs) ← parse2Digits cs
  let cs ← expectCh ':' cs
  let (s, cs) ← parse2Digits cs
  pure (h, m, s, cs)

/-- `strptime("%H:%M:%S")` succeeds exactly when the fields are in range. -/
def validHms (h m s : Nat) : Bool := h < 24 && m < 60 && s < 60

/-! ## Customer-journal line parsing

`parse_customer_journal` of `modules/transaction_analyzer.py`: each
stripped, non-empty, non-asterisk line is matched against
`^(\d{2}:\d{2}:\d{2})\s+(\d+)\s*(.*)`; a time token of valid shape but
invalid value (`ValueError` from `strptime`) leaves the timestamp null. -/

structure Row where
  ts : Option Hms
  tid : Option String
  msg : String
deriving DecidableEq

/-- Match `^(\d{2}:\d{2}:\d{2})\s+(\d+)\s*(.*)` on the characters of a
stripped line; yields (h, m, s, tid digits, message). -/
def matchJournalShape (cs : List Char) : Option (Nat × Nat × Nat × List Char × List Char) := do
  let (h, m, s, cs) ← parseTimeShape cs
  let cs ← parseWs1 cs
  let (tid, cs) ← parseDigits1 cs
  let (_, rest) := spanP isPyWs cs
  pure (h, m, s, tid, rest)

def parseRow (line : String) : Row :=
  match matchJournalShape line.data with
  | some (h, m, s, tid, rest) =>
    { ts := if validHms h m s then some ⟨h, m, s⟩ else none
      tid := some (String.mk tid)
      msg := String.mk rest }
  | none => { ts := none, tid := none, msg := line }

/-- A stripped line consisting only of asterisks (`set(line) <= {'*'}`). -/
def allStars (s : String) : Bool := s.data.all (· == '*')

def parseJournalLines (lines : List String) : List Row :=
  ((lines.map stripStr).filter (fun l => l ≠ "" && !allStars l)).map parseRow

/-! ## Boundary configuration and the forward boundary walk

`BoundaryConfig` mirrors the result of `xml_to_dict`: a code-to-name
association list plus the three TID lists. -/

structure BoundaryConfig where
  realDict : List (String × String)
  startKey : List String
  endKey : List String
  chainKey : List String

def lookupD (d : List (String × String)) (k dflt : String) : String :=
  match d.find? (fun p => p.1 == k) with
  | some p => p.2
  | none => dflt

/-- `str(row["tid"])`: Python renders a missing tid as `"None"`. -/
def rowTidStr (r : Row) : String :=
  match r.tid with
  | some t => t
  | none => "None"

def isStartOrChain (cfg : BoundaryConfig) (r : Row) : Bool :=
  cfg.startKey.any (fun t => rowTidStr r == t) ||
  cfg.chainKey.any (fun t => rowTidStr r == t)

def isEndTid (cfg : BoundaryConfig) (r : Row) : Bool :=
  cfg.endKey.any (fun t => rowTidStr r == t)

/-- Inner loop of `_find_all_transactions`: scan forward from `j` for the
first end TID, abandoning when another start/chain TID appears more than
3 lines past the segment start `i`. The fuel argument makes the loop
structurally recursive; `rows.length` fuel is always sufficient since `j`
advances by one per step. -/
def scanEnd (cfg : BoundaryConfig) (rows : List Row) (i : Nat) : Nat → Nat → Option Nat
  | 0, _ => none
  | fuel + 1, j =>
    if h : j < rows.length then
      let r := rows.get ⟨j, h⟩
      if isEndTid cfg r then some j
      else if isStartOrChain cfg r && decide (i + 3 < j) then none
      else scanEnd cfg rows i fuel (j + 1)
    else none

/-- Outer loop of `_find_all_transactions`: the single forward boundary
walk collecting `(start_idx, end_idx)` pairs. On a closed segment the
index jumps to `end_idx + 1`; otherwise it advances by one. Fuel as in
`scanEnd` (the walk index strictly increases each iteration). -/
def walkBounds (cfg : BoundaryConfig) (rows : List Row) : Nat → Nat → List (Nat × Nat)
  | 0, _ => []
  | fuel + 1, i =>
    if h : i < rows.length then
      if isStartOrChain cfg (rows.get ⟨i, h⟩) then
        match scanEnd cfg rows i rows.length (i + 1) with
        | some e => (i, e) :: walkBounds cfg rows fuel (e + 1)
        | none => walkBounds cfg rows fuel (i + 1)
      else walkBounds cfg rows fuel (i + 1)
    else []

def findBounds (cfg : BoundaryConfig) (rows : List Row) : List (Nat × Nat) :=
  walkBounds cfg rows rows.length 0

/-- `df.iloc[start_idx:end_idx+1]`. -/
def segmentOf (rows : List Row) (b : Nat × Nat) : List Row :=
  (rows.take (b.2 + 1)).drop b.1

/-! ## Building transaction records from closed segments -/

/-- `re.search(r"Transaction no\. '([^']*)'", msg)`: scan left to right for
the literal, then capture up to the next quote (which must be present). -/
def searchTxnNo : List Char → Option String
  | [] => none
  | c :: cs =>
    if startsWithSeq "Transaction no. '".data (c :: cs) then
      let after := (c :: cs).drop "Transaction no. '".length
      let (grp, rest) := spanP (· != '\'') after
      match rest with
      | '\'' :: _ => some (String.mk grp)
      | _ => searchTxnNo cs
    else searchTxnNo cs

/-- `re.search(r"Function\s+'([^']+)'", msg)`. -/
def matchFunctionAt (cs : List Char) : Option String :=
  if startsWithSeq "Function".data cs then
    let after := cs.drop "Function".length
    match parseWs1 after with
    | none => none
    | some after =>
      match after with
      | '\'' :: tl =>
        let (grp, rest) := spanP (· != '\'') tl
        match rest with
        | '\'' :: _ => if grp.isEmpty then none else some (String.mk grp)
        | _ => none
      | _ => none
  else none

def searchFunction : List Char → Option String
  | [] => none
  | c :: cs =>
    match matchFunctionAt (c :: cs) with
    | some g => some g
    | none => searchFunction cs

/-- `func_match.group(1).split('/')[0]`. -/
def funcHead (s : String) : String := String.mk (s.data.takeWhile (· != '/'))

/-- End-state classification by substring match on the end row's message. -/
def classifyEndState (msg : String) : String :=
  if strContains msg "end-state'N'" || strContains msg "end-state'n'" ||
     strContains msg "state 'N'" || strContains msg "state 'n'" then "Successful"
  else if strContains msg "end-state'E'" || strContains msg "end-state'e'" ||
     strContains msg "state 'E'" || strContains msg "state 'e'" ||
     strContains msg "state 'C'" || strContains msg "state 'c'" then "Unsuccessful"
  else "Unknown"

/-- `f"{duration_seconds:.1f}s"` after the midnight wraparound; the
difference of two whole-second times is integral, so the formatted value
always ends in `.0s`. -/
def durStr (s e : Hms) : String :=
  let d : Int := (e.toSecs : Int) - (s.toSecs : Int)
  let d' : Int := if d < 0 then d + 24 * 3600 else d
  toString d'.toNat ++ ".0s"

/-- The duration field: `end - start` in seconds with the midnight
wraparound, `"N/A"` when either time is missing. -/
def durationField : Option Hms → Option Hms → String
  | some s, some e => durStr s e
  | _, _ => "N/A"

structure Txn where
  txnId : Option String
  txnType : String
  startTime : Option Hms
  endTime : Option Hms
  duration : String
  endState : String
  txnLog : String
  sourceFile : String
deriving DecidableEq

/-- One line of the reconstituted transaction log
(`'??'` for a missing timestamp, `str(None) = "None"` for a missing tid). -/
def rowLogLine (r : Row) : String :=
  (match r.ts with
   | some t => t.clock
   | none => "??") ++ " " ++ rowTidStr r ++ " " ++ r.msg

/-- End details, transaction type, log and duration: the part of the
record construction that cannot raise. -/
def mkRest (cfg : BoundaryConfig) (dummy : String) (seg : List Row)
    (st : Option Hms) (tid? : Option String) : Txn :=
  let endRow := cfg.endKey.findSome? (fun k => (seg.filter (fun r => r.tid == some k)).getLast?)
  let et := endRow.bind (·.ts)
  let endState := match endRow with
    | some r => classifyEndState r.msg
    | none => "Unknown"
  let txnType := match (seg.filter (fun r => r.tid == some "3217")).findSome?
      (fun r => searchFunction r.msg.data) with
    | some f => lookupD cfg.realDict (funcHead f) (funcHead f)
    | none => "Unknown"
  let txnLog := String.intercalate "\n" (seg.map rowLogLine)
  { txnId := tid?, txnType := txnType, startTime := st, endTime := et,
    duration := durationField st et, endState := endState, txnLog := txnLog,
    sourceFile := dummy }

/-- Start time and transaction id from the first matching start row.
`txn_id = match.group(1) if match and match.group(1).strip() else
(dummy + start_time.strftime("%H%M%S"))` — the `strftime` call on a null
start time raises, which the embedding renders as `Except.error`. -/
def startIdOf (dummy : String) (r : Row) : Except Unit (Option Hms × Option String) :=
  match searchTxnNo r.msg.data with
  | some g =>
    if stripStr g ≠ "" then .ok (r.ts, some g)
    else match r.ts with
      | some t => .ok (r.ts, some (dummy ++ t.compact))
      | none => .error ()
  | none =>
    match r.ts with
    | some t => .ok (r.ts, some (dummy ++ t.compact))
    | none => .error ()

/-- Record construction for one closed segment, mirroring the body of the
`for start_idx, end_idx in transactions_bounds` loop. -/
def buildTxn (cfg : BoundaryConfig) (dummy : String) (seg : List Row) : Except Unit Txn :=
  match cfg.startKey.findSome? (fun k => seg.find? (fun r => r.tid == some k)) with
  | some r =>
    match startIdOf dummy r with
    | .error e => .error e
    | .ok (st, tid?) => .ok (mkRest cfg dummy seg st tid?)
  | none =>
    match cfg.chainKey.findSome? (fun k => seg.find? (fun r => r.tid == some k)) with
    | some r =>
      let tid? := some (match r.ts with
        | some t => dummy ++ t.compact
        | none => "CHAIN_" ++ dummy)
      .ok (mkRest cfg dummy seg r.ts tid?)
    | none => .ok (mkRest cfg dummy seg none none)

/-- Sequential record construction; a raised exception aborts the file's
extraction (the whole result), as in Python. -/
def mapExcept : List α → (α → Except Unit β) → Except Unit (List β)
  | [], _ => .ok []
  | a :: as, f =>
    match f a with
    | .error e => .error e
    | .ok b =>
      match mapExcept as f with
      | .error e => .error e
      | .ok bs => .ok (b :: bs)

/-- `_find_all_transactions` over already-parsed rows. -/
def findAllTxns (cfg : BoundaryConfig) (rows : List Row) (dummy : String) :
    Except Unit (List Txn) :=
  mapExcept (findBounds cfg rows) (fun b => buildTxn cfg dummy (segmentOf rows b))

/-- `parse_customer_journal`, from raw lines to transaction records. -/
def parseCustomerJournal (cfg : BoundaryConfig) (lines : List String) (dummy : String) :
    Except Unit (List Txn) :=
  findAllTxns cfg (parseJournalLines lines) dummy

/-! ## The flow aligner (`find_lcs_matches` of `routes.py`)

The dynamic-programming table `lcs_table[i][j]` is embedded row by row —
exactly the order the Python fill loop produces it — which keeps the
recursion structural. `lcsCell A B i j` is the value of `lcs_table[i][j]`. -/

/-- One row-fill step: given row `i` of the table (`prev`), compute row
`i+1` as a function of the column index. -/
def lcsRowStep (A B : List String) (prev : Nat → Nat) (i : Nat) : Nat → Nat
  | 0 => 0
  | j + 1 =>
    if A.get? i = B.get? j then prev j + 1
    else max (prev (j + 1)) (lcsRowStep A B prev i j)

def lcsCell (A B : List String) : Nat → Nat → Nat
  | 0 => fun _ => 0
  | i + 1 => lcsRowStep A B (lcsCell A B i) i

/-- The backtrack over the table, returning the `(i-1, j-1)` index pairs
marked matched, from the bottom-right corner down. The same nested
structure keeps it structurally recursive. -/
def btRowStep (A B : List String) (prev : Nat → List (Nat × Nat)) (i : Nat) :
    Nat → List (Nat × Nat)
  | 0 => []
  | j + 1 =>
    if A.get? i = B.get? j then (i, j) :: prev j
    else if lcsCell A B i (j + 1) > lcsCell A B (i + 1) j then prev (j + 1)
    else btRowStep A B prev i j

def btrack (A B : List String) : Nat → Nat → List (Nat × Nat)
  | 0 => fun _ => []
  | i + 1 => btRowStep A B (btrack A B i) i

/-- `matches1`: position `k` of the first flow is marked when some
backtrack pair has it as first component. -/
def maskFst (n : Nat) (P : List (Nat × Nat)) : List Bool :=
  (List.range n).map (fun k => P.any (fun p => p.1 == k))

/-- `matches2`, symmetrically. -/
def maskSnd (n : Nat) (P : List (Nat × Nat)) : List Bool :=
  (List.range n).map (fun k => P.any (fun p => p.2 == k))

/-- The two boolean masks (`matches1`, `matches2`). -/
def findLcsMatches (A B : List String) : List Bool × List Bool :=
  let P := btrack A B A.length B.length
  (maskFst A.length P, maskSnd B.length P)

/-- The subsequence a mask selects from a list. -/
def masked (l : List String) (mask : List Bool) : List String :=
  (l.zip mask).filterMap (fun p => if p.2 then some p.1 else none)

/-- Reference LCS length, by recursion on the first elements; used to
state optimality of the table. -/
def lcsLenStep (prev : List String → Nat) (a : String) : List String → Nat
  | [] => 0
  | b :: bs =>
    if a = b then prev bs + 1
    else max (prev (b :: bs)) (lcsLenStep prev a bs)

def lcsLen : List String → List String → Nat
  | [] => fun _ => 0
  | a :: as => lcsLenStep (lcsLen as) a

/-! ## The UI event parser, Pass 1 (`parse_ui_journal` of
`ui_journal_processor.py`)

Pass 1 matches each stripped line against `pattern_no_date`
(`^(\d{2}:\d{2}:\d{2})\s+(\d+)\s+(\w+)\s+([<>*])\s+\[(\d+)\]\s+-\s+(\w+)\s+(result|action):(.+)$`),
keeps only `result`/`action` events, applies the GUIDM/DMAuthorization
filter, and validates the embedded payload with `json.loads`. -/

def isDirCh (c : Char) : Bool := c == '<' || c == '>' || c == '*'

structure UiGroups where
  timeStr : String
  logId : String
  module : String
  direction : Char
  viewId : String
  screen : String
  kind : String
  payload : String
deriving DecidableEq

/-- `(result|action):` followed by the non-empty payload `(.+)$`. -/
def uiMatchKind (cs : List Char) : Option (String × String) :=
  if startsWithSeq "result:".data cs then
    let p := cs.drop 7
    if p.isEmpty then none else some ("result", String.mk p)
  else if startsWithSeq "action:".data cs then
    let p := cs.drop 7
    if p.isEmpty then none else some ("action", String.mk p)
  else none

/-- `\[(\d+)\]\s+-\s+` of the UI pattern. -/
def uiMatchView (cs : List Char) : Option (String × List Char) := do
  let cs ← expectCh '[' cs
  let (vid, cs) ← parseDigits1 cs
  let cs ← expectCh ']' cs
  let cs ← parseWs1 cs
  let cs ← expectCh '-' cs
  let cs ← parseWs1 cs
  pure (String.mk vid, cs)

/-- `(\w+)\s+(result|action):(.+)$` of the UI pattern. -/
def uiMatchScreenKind (cs : List Char) : Option (String × String × String) := do
  let (scr, cs) ← parseWord1 cs
  let cs ← parseWs1 cs
  let (kind, payload) ← uiMatchKind cs
  pure (String.mk scr, kind, payload)

/-- The tail of both UI patterns, from the log-entry id onward:
`(\d+)\s+(\w+)\s+([<>*])\s+\[(\d+)\]\s+-\s+(\w+)\s+(result|action):(.+)$`. -/
def uiMatchTail (timeStr : String) (cs : List Char) : Option UiGroups := do
  let (idDigits, cs) ← parseDigits1 cs
  let cs ← parseWs1 cs
  let (modW, cs) ← parseWord1 cs
  let cs ← parseWs1 cs
  match cs with
  | d :: cs =>
    if isDirCh d then do
      let cs ← parseWs1 cs
      let (vid, cs) ← uiMatchView cs
      let (scr, kind, payload) ← uiMatchScreenKind cs
      pure ⟨timeStr, String.mk idDigits, String.mk modW, d, vid, scr, kind, payload⟩
    else none
  | [] => none

/-- `pattern_no_date.match(line)`. -/
def uiMatchNoDate (cs : List Char) : Option UiGroups := do
  let (h, m, s, cs) ← parseTimeShape cs
  let cs ← parseWs1 cs
  uiMatchTail (pad2 h ++ ":" ++ pad2 m ++ ":" ++ pad2 s) cs

/-- `^(\d{2}/\d{2}/\d{4})\s+`, the leading date prefix of
`pattern_with_date`. -/
def uiDateLead (cs : List Char) : Option (List Char) := do
  let (_, cs) ← parse2Digits cs
  let cs ← expectCh '/' cs
  let (_, cs) ← parse2Digits cs
  let cs ← expectCh '/' cs
  let (_, cs) ← parse2Digits cs
  let (_, cs) ← parse2Digits cs
  parseWs1 cs

/-- `pattern_with_date.match(line)`. -/
def uiMatchWithDate (cs : List Char) : Option UiGroups := do
  let cs ← uiDateLead cs
  uiMatchNoDate cs

/-! JSON syntax validation (`json.loads` used purely as a validity check). -/

def jsonSkipWs (cs : List Char) : List Char :=
  cs.dropWhile (fun c => c == ' ' || c == '\t' || c == '\n' || c == '\x0d')

def jsonStringRest : Nat → List Char → Option (List Char)
  | 0, _ => none
  | _ + 1, [] => none
  | fuel + 1, c :: cs =>
    if c == '"' then some cs
    else if c == '\\' then
      match cs with
      | e :: cs' =>
        if e == '"' || e == '\\' || e == '/' || e == 'b' || e == 'f' ||
           e == 'n' || e == 'r' || e == 't' then jsonStringRest fuel cs'
        else if e == 'u' then
          match cs' with
          | a :: b :: c2 :: d2 :: cs'' =>
            if isHexCh a && isHexCh b && isHexCh c2 && isHexCh d2 then
              jsonStringRest fuel cs''
            else none
          | _ => none
        else none
      | [] => none
    else if c.toNat < 32 then none
    else jsonStringRest fuel cs

def jsonNumberRest (cs : List Char) : Option (List Char) :=
  let cs := match cs with
    | '-' :: tl => tl
    | _ => cs
  match cs with
  | [] => none
  | c :: tl =>
    if c == '0' then
      let cs := tl
      let cs := match cs with
        | '.' :: d :: tl' => if d.isDigit then (d :: tl').dropWhile Char.isDigit else '.' :: d :: tl'
        | _ => cs
      let cs := match cs with
        | e :: tl' =>
          if e == 'e' || e == 'E' then
            let tl'' := match tl' with
              | s :: tl'' => if s == '+' || s == '-' then tl'' else tl'
              | [] => tl'
            match tl'' with
            | d :: _ => if d.isDigit then tl''.dropWhile Char.isDigit else e :: tl'
            | [] => e :: tl'
          else e :: tl'
        | [] => cs
      some cs
    else if c.isDigit then
      let cs := (c :: tl).dropWhile Char.isDigit
      let cs := match cs with
        | '.' :: d :: tl' => if d.isDigit then (d :: tl').dropWhile Char.isDigit else '.' :: d :: tl'
        | _ => cs
      let cs := match cs with
        | e :: tl' =>
          if e == 'e' || e == 'E' then
            let tl'' := match tl' with
              | s :: tl'' => if s == '+' || s == '-' then tl'' else tl'
              | [] => tl'
            match tl'' with
            | d :: _ => if d.isDigit then tl''.dropWhile Char.isDigit else e :: tl'
            | [] => e :: tl'
          else e :: tl'
        | [] => cs
      some cs
    else none

mutual
/-- Parse one JSON value, returning the unconsumed remainder. -/
def jsonValue : Nat → List Char → Option (List Char)
    | 0, _ => none
    | fuel + 1, cs =>
      let cs := jsonSkipWs cs
      match cs with
      | [] => none
      | c :: tl =>
        if c == '"' then jsonStringRest (tl.length + 1) tl
        else if c == '{' then jsonObjRest fuel (jsonSkipWs tl) true
        else if c == '[' then jsonArrRest fuel (jsonSkipWs tl) true
        else if startsWithSeq "null".data cs then some (cs.drop 4)
        else if startsWithSeq "true".data cs then some (cs.drop 4)
        else if startsWithSeq "false".data cs then some (cs.drop 5)
        else jsonNumberRest cs

/-- After the opening brace (whitespace skipped): members list; `first`
marks whether a closing brace may come immediately. -/
def jsonObjRest : Nat → List Char → Bool → Option (List Char)
    | 0, _, _ => none
    | fuel + 1, cs, first =>
      match cs with
      | '}' :: tl => if first then some tl else none
      | '"' :: tl => do
        let cs ← jsonStringRest (tl.length + 1) tl
        let cs := jsonSkipWs cs
        let cs ← expectCh ':' cs
        let cs ← jsonValue fuel cs
        let cs := jsonSkipWs cs
        match cs with
        | ',' :: tl' =>
          let cs' := jsonSkipWs tl'
          match cs' with
          | '"' :: _ => jsonObjRest fuel cs' false
          | _ => none
        | '}' :: tl' => some tl'
        | _ => none
      | _ => none

def jsonArrRest : Nat → List Char → Bool → Option (List Char)
    | 0, _, _ => none
    | fuel + 1, cs, first =>
      match cs with
      | ']' :: tl => if first then some tl else none
      | _ => do
        let cs ← jsonValue fuel cs
        let cs := jsonSkipWs cs
        match cs with
        | ',' :: tl' => jsonArrRest fuel (jsonSkipWs tl') false
        | ']' :: tl' => some tl'
        | _ => none
end

/-- `json.loads(s)` succeeds (syntactic validity only). The standard
JSON grammar; the CPython extension literals `NaN`/`Infinity` are not
modelled, and no property proved here depends on them. -/
def jsonValid (s : String) : Bool :=
  match jsonValue (s.length + 1) s.data with
  | some rest => (jsonSkipWs rest).isEmpty
  | none => false

/-- Pass 1 acceptance for one stripped line: `pattern_no_date` must match
(the with-date variant is *not* tried here), the event kind must be
`result`/`action`, GUIDM lines must show the `DMAuthorization` screen,
and the payload must be valid JSON. -/
def pass1Accept (line : String) : Bool :=
  match uiMatchNoDate line.data with
  | none => false
  | some g =>
    (g.kind == "result" || g.kind == "action") &&
    !(g.module == "GUIDM" && g.screen != "DMAuthorization") &&
    jsonValid g.payload

/-! ## File-type detection (`configManager.py`) -/

/-- `\d{2}/\d{2}\s+\d{6}\s+` of the TRC-Error header. -/
def trcHdrDatePart (cs : List Char) : Option (List Char) := do
  let (_, cs) ← parse2Digits cs
  let cs ← expectCh '/' cs
  let (_, cs) ← parse2Digits cs
  let cs ← parseWs1 cs
  let (d6, cs) ← parseDigits1 cs
  if d6.length ≠ 6 then none else parseWs1 cs

/-- `\d{2}:\d{2}:\d{2}\.\d{1,3}\s+` of the TRC-Error header. -/
def trcHdrTimePart (cs : List Char) : Option (List Char) := do
  let (_, _, _, cs) ← parseTimeShape cs
  let cs ← expectCh '.' cs
  let (ms, cs) ← parseDigits1 cs
  if ms.length > 3 then none else parseWs1 cs

/-- `\w+\s+\w+\s+` of the TRC-Error header. -/
def trcHdrWordsPart (cs : List Char) : Option (List Char) := do
  let (_, cs) ← parseWord1 cs
  let cs ← parseWs1 cs
  let (_, cs) ← parseWord1 cs
  parseWs1 cs

/-- `PID:\w+\.\w+\s+Data:\d+` of the TRC-Error header. -/
def trcHdrPidDataPart (cs : List Char) : Option (List Char) := do
  if startsWithSeq "PID:".data cs then
    let cs := cs.drop 4
    let (_, cs) ← parseWord1 cs
    let cs ← expectCh '.' cs
    let (_, cs) ← parseWord1 cs
    let cs ← parseWs1 cs
    if startsWithSeq "Data:".data cs then
      let (_, cs) ← parseDigits1 (cs.drop 5)
      pure cs
    else none
  else none

/-- `re.match` of the strict TRC-Error header
`^\d{2}/\d{2}\s+\d{6}\s+\d{2}:\d{2}:\d{2}\.\d{1,3}\s+\w+\s+\w+\s+PID:\w+\.\w+\s+Data:\d+`
(prefix match; trailing content is unconstrained). -/
def trcErrorHeaderMatch (l : String) : Bool :=
  (do
    let cs ← trcHdrDatePart l.data
    let cs ← trcHdrTimePart cs
    let cs ← trcHdrWordsPart cs
    trcHdrPidDataPart cs).isSome

/-- `count_trc_error_headers`. -/
def countTrcErrorHeaders (lines : List String) : Nat :=
  (lines.map stripStr).countP
    (fun l => l ≠ "" && trcErrorHeaderMatch l)

/-- `detect_trc_error_pattern`: the strict header, or one of the three
fixed section markers. -/
def trcErrorLineIndicator (l : String) : Bool :=
  trcErrorHeaderMatch l ||
  startsWithSeq "*** Running".data l.data ||
  startsWithSeq "Created by".data l.data ||
  l == "Process Information:"

def detectTrcErrorPattern (lines : List String) : Nat :=
  (lines.map stripStr).countP (fun l => l ≠ "" && trcErrorLineIndicator l)

/-- `re.search(r'\d{2}:\d{2}:\d{2}\.\d{2}', line)`. -/
def hasTimeMsToken : List Char → Bool
  | [] => false
  | c :: cs =>
    (match parseTimeShape (c :: cs) with
     | some (_, _, _, rest) =>
       (match rest with
        | '.' :: d1 :: d2 :: _ => isDigitCh d1 && isDigitCh d2
        | _ => false)
     | none => false) ||
    hasTimeMsToken cs

/-- `re.search(r'PID:\w+\.\w+', line)`. -/
def hasPidToken : List Char → Bool
  | [] => false
  | c :: cs =>
    (if startsWithSeq "PID:".data (c :: cs) then
      (do
        let cs' := (c :: cs).drop 4
        let (_, cs') ← parseWord1 cs'
        let cs' ← expectCh '.' cs'
        let (_, cs') ← parseWord1 cs'
        pure cs').isSome
     else false) ||
    hasPidToken cs

/-- `detect_trc_trace_pattern`: sub-second timestamp, PID token and
`Data:` all on the same line. -/
def trcTraceLineIndicator (l : String) : Bool :=
  hasTimeMsToken l.data && hasPidToken l.data && strContains l "Data:"

def detectTrcTracePattern (lines : List String) : Nat :=
  (lines.map stripStr).countP (fun l => l ≠ "" && trcTraceLineIndicator l)

/-- `re.search(r'\s+[<>*]\s+', line)`: a direction symbol with whitespace
immediately on both sides. -/
def hasDirToken : List Char → Bool
  | a :: b :: c :: rest =>
    (isPyWs a && isDirCh b && isPyWs c) || hasDirToken (b :: c :: rest)
  | _ => false

/-- `re.search(r'\[\d+\]', line)`. -/
def hasBracketNum : List Char → Bool
  | [] => false
  | c :: cs =>
    (match (c :: cs) with
     | '[' :: tl =>
       (match parseDigits1 tl with
        | some (_, ']' :: _) => true
        | _ => false)
     | _ => false) ||
    hasBracketNum cs

/-- `re.search(r'(result|action):\s*\{.*\}', line)`. -/
def hasKindJsonToken : List Char → Bool
  | [] => false
  | c :: cs =>
    (let cur := c :: cs
     let tryKw : Nat → Bool := fun n =>
       let after := (cur.drop n).dropWhile isPyWs
       match after with
       | '{' :: tl => tl.contains '}'
       | _ => false
     (startsWithSeq "result:".data cur && tryKw 7) ||
     (startsWithSeq "action:".data cur && tryKw 7)) ||
    hasKindJsonToken cs

/-- `re.search(r'^\d{2}:\d{2}:\d{2}\s+\d+\s+\w+\s+[<>*]', ...)` and the
with-date variant: the leading shape of a UI event line. -/
def hasUiLeadShape (cs : List Char) : Bool :=
  (do
    let (_, _, _, cs) ← parseTimeShape cs
    let cs ← parseWs1 cs
    let (_, cs) ← parseDigits1 cs
    let cs ← parseWs1 cs
    let (_, cs) ← parseWord1 cs
    let cs ← parseWs1 cs
    match cs with
    | d :: _ => if isDirCh d then some () else none
    | [] => none).isSome

def hasUiLeadShapeDated (cs : List Char) : Bool :=
  (do
    let (_, cs) ← parse2Digits cs
    let cs ← expectCh '/' cs
    let (_, cs) ← parse2Digits cs
    let cs ← expectCh '/' cs
    let (_, cs) ← parse2Digits cs
    let (_, cs) ← parse2Digits cs
    let cs ← parseWs1 cs
    if hasUiLeadShape cs then some () else none).isSome

/-- The five `detect_ui_journal_pattern` indicators for one stripped line. -/
def uiIndicators (l : String) : Nat :=
  (if hasDirToken l.data then 1 else 0) +
  (if hasBracketNum l.data then 1 else 0) +
  (if strContains l " - " then 1 else 0) +
  (if hasKindJsonToken l.data then 1 else 0) +
  (if hasUiLeadShape l.data || hasUiLeadShapeDated l.data then 1 else 0)

def detectUiJournalPattern (lines : List String) : Nat :=
  (lines.map stripStr).countP (fun l => l ≠ "" && uiIndicators l ≥ 4)

/-- The basic `^(\d{2}:\d{2}:\d{2})\s+(\d+)\s*(.*)` shape check of
`detect_customer_journal_pattern`, returning the tid digits. -/
def customerBasicTid (l : String) : Option String :=
  (matchJournalShape l.data).map (fun g => String.mk g.2.2.2.1)

/-- The (up to five) non-UI indicators for one stripped line. -/
def customerIndicators (l : String) : Nat :=
  (if !hasDirToken l.data then 1 else 0) +
  (if !hasBracketNum l.data then 1 else 0) +
  (if !strContains l " - " then 1 else 0) +
  (if !hasKindJsonToken l.data then 1 else 0) +
  (match customerBasicTid l with
   | some tid => if tid ∈ ["3201", "3202", "3207", "3217", "3220"] then 1 else 0
   | none => 0)

def detectCustomerJournalPattern (lines : List String) : Nat :=
  (lines.map stripStr).countP
    (fun l => l ≠ "" && !allStars l && (customerBasicTid l).isSome &&
      customerIndicators l ≥ 4)

/-- Extensions short-circuited as non-log formats in `detect_file_type`. -/
def skipExts : List String :=
  [".py", ".js", ".html", ".css", ".json", ".xml", ".txt", ".xlsx", ".xls",
   ".csv", ".pdf", ".doc", ".docx"]

/-- `detect_file_type`, modelled over the file's extension (already
lowercased, as `Path(...).suffix.lower()` produces it) and its decoded
content split on newlines. File existence and the encoding fallback chain
are I/O concerns outside the embedding. -/
def detectFileType (ext : String) (lines : List String) : String :=
  if ext ∈ skipExts then
    "Unidentified: File format does not match any known patterns with sufficient confidence"
  else
    let nonEmpty := lines.countP (fun l => stripStr l ≠ "")
    if nonEmpty < 5 then
      "Insufficient data: File contains less than 5 non-empty lines"
    else
      let ui := detectUiJournalPattern lines
      let customer := detectCustomerJournalPattern lines
      let trc := detectTrcTracePattern lines
      let trcError := detectTrcErrorPattern lines
      let maxM := max (max ui customer) (max trc trcError)
      if maxM < 5 then
        "Unidentified: File format does not match any known patterns with sufficient confidence"
      else if ext == ".prn" then
        let headers := countTrcErrorHeaders lines
        if headers ≥ 5 then "TRC Error (.prn)"
        else if trcError == maxM then "TRC Error (.prn)"
        else if trc == maxM then "TRC Trace (.prn)"
        else if trcError ≥ 5 then "TRC Error (.prn)"
        else if trc ≥ 5 then "TRC Trace (.prn)"
        else "Unidentified: .prn file does not match TRC patterns with sufficient confidence"
      else if ext == ".jrn" then
        if ui == maxM then "UI Journal (.jrn)"
        else if customer == maxM then "Customer Journal (.jrn)"
        else if ui ≥ 5 then "UI Journal (.jrn)"
        else if customer ≥ 5 then "Customer Journal (.jrn)"
        else "Unidentified: .jrn file does not match Journal patterns with sufficient confidence"
      else
        if trcError == maxM && maxM ≥ 10 then "TRC Error (.prn/.log)"
        else if ui == maxM && maxM ≥ 10 then "UI Journal (.jrn)"
        else if customer == maxM && maxM ≥ 10 then "Customer Journal (.jrn)"
        else if trc == maxM && maxM ≥ 10 then "TRC Trace (.prn)"
        else "Unidentified: File format does not match any known patterns with sufficient confidence"

/-! ## The category router (`categorization.py`) -/

def strToLower (s : String) : String := String.mk (s.data.map Char.toLower)

def strEndsWith (s suf : String) : Bool :=
  startsWithSeq suf.data.reverse s.data.reverse

/-- `Path(name).suffix`: the final dotted component, empty for names with
no dot, a leading dot only, or a trailing dot. -/
def pathSuffix (name : String) : String :=
  let cs := name.data.reverse
  let (ext, rest) := spanP (· != '.') cs
  match rest with
  | '.' :: r =>
    if r.isEmpty || ext.isEmpty then ""
    else String.mk ('.' :: ext.reverse)
  | _ => ""

/-- `_detect_category`, over the file's base name and decoded content
lines; returns the bucket name, `none` when the file is dropped. -/
def detectCategory (name : String) (lines : List String) : Option String :=
  let lower := strToLower name
  if strEndsWith lower ".reg" then some "registry_files"
  else if strEndsWith lower ".txt" && strContains lower "reg" then some "registry_files"
  else
    let ft := detectFileType (strToLower (pathSuffix name)) lines
    if strContains ft "Customer Journal" then some "customer_journals"
    else if strContains ft "UI Journal" then some "ui_journals"
    else if strContains ft "TRC Trace" then some "trc_trace"
    else if strContains ft "TRC Error" then some "trc_error"
    else none

/-! ## The flow correlator (`UIJournalProcessor.get_events_in_timerange`
and `get_screen_flow`) -/

structure UiEv where
  t : Nat
  screen : String
deriving DecidableEq

/-- Inclusive time-window filter. -/
def getEventsInTimerange (df : List UiEv) (s e : Nat) : List UiEv :=
  df.filter (fun ev => s ≤ ev.t && ev.t ≤ e)

def timeLe (a b : UiEv) : Prop := a.t ≤ b.t

instance : DecidableRel timeLe := fun a b => Nat.decLe a.t b.t

def sortByTime (l : List UiEv) : List UiEv := l.insertionSort timeLe

/-- The `prev_screen` loop of `get_screen_flow`. -/
def collapseLoop : List UiEv → Option String → List String
  | [], _ => []
  | ev :: rest, prev =>
    if some ev.screen ≠ prev then ev.screen :: collapseLoop rest (some ev.screen)
    else collapseLoop rest prev

def getScreenFlow (df : List UiEv) (s e : Nat) : List String :=
  let events := getEventsInTimerange df s e
  if events.length = 0 then []
  else collapseLoop (sortByTime events) none

/-- Consecutive-duplicate collapse, stated as the specification words it:
each maximal run of equal adjacent names becomes one entry. -/
def dedupConsecutive : List String → List String
  | [] => []
  | [a] => [a]
  | a :: b :: rest =>
    if a = b then dedupConsecutive (b :: rest)
    else a :: dedupConsecutive (b :: rest)

/-- The flow contract as the specification words it. -/
def screenFlowSpec (df : List UiEv) (s e : Nat) : List String :=
  dedupConsecutive
    ((sortByTime (df.filter (fun ev => s ≤ ev.t && ev.t ≤ e))).map (·.screen))

instance : IsTotal UiEv timeLe := ⟨fun a b => Nat.le_total a.t b.t⟩

instance : IsTrans UiEv timeLe := ⟨fun _ _ _ => Nat.le_trans⟩

/-! ## Concrete inputs used to instantiate the verified properties -/

def c1Cfg : BoundaryConfig := ⟨[("COUT", "Withdrawal")], ["3201"], ["3220"], []⟩

def c1Rows : List Row := parseJournalLines
  ["09:15:00 3201 Transaction no. '00045'",
   "09:15:05 3217 Function 'COUT/1'",
   "09:15:30 3220 end-state'N'"]

def c5Cfg : BoundaryConfig := ⟨[("COUT", "Withdrawal")], ["3201"], ["3220"], []⟩

def c5Rows : List Row := parseJournalLines
  ["09:15:00 3201 Transaction no. '00045'",
   "09:15:05 3217 Function 'COUT/1'",
   "09:15:30 3220 end-state'N'"]

/-- The record `c5Rows` extracts to, written out in full. -/
def c5Txn : Txn :=
  ⟨some "00045", "Withdrawal", some ⟨9, 15, 0⟩, some ⟨9, 15, 30⟩, "30.0s", "Successful",
   "09:15:00 3201 Transaction no. '00045'\n09:15:05 3217 Function 'COUT/1'\n09:15:30 3220 end-state'N'",
   "file"⟩

def c9Cfg : BoundaryConfig := ⟨[], ["3201"], ["3220"], []⟩

def c9Rows : List Row := parseJournalLines
  ["25:00:00 3201 card inserted",
   "09:15:30 3220 end-state'N'"]

def c2Cfg : BoundaryConfig := ⟨[], ["1"], ["2"], []⟩

def c2Rows : List Row := parseJournalLines
  ["00:00:01 1 a", "00:00:02 2 b"]

def c7Hdr : String := "12/34 250101 10:00:00.123 Err Mod PID:1.2 Data:5"

def c7Lines : List String := [c7Hdr, c7Hdr, c7Hdr, c7Hdr, c7Hdr]

/-- Registry-style content under a non-registry file name. -/
def c10Lines : List String :=
  ["Windows Registry Editor Version 5.00",
   "[HKEY_LOCAL_MACHINE\\SOFTWARE\\Example]",
   "\"InstallPath\"=\"C:\\\\Program Files\\\\Example\"",
   "\"Version\"=dword:00000001",
   "[HKEY_CURRENT_USER\\Software\\Example]",
   "\"Setting\"=\"on\""]

def c6Undated : String := "09:15:00 123 GUIAPP > [42] - MainMenu result:{}"

def c6Dated : String := "01/02/2024 09:15:00 123 GUIAPP > [42] - MainMenu result:{}"

def c3FlowA : List String := ["Login", "Menu", "Withdraw", "Receipt"]

def c3FlowB : List String := ["Login", "Balance", "Menu", "Receipt"]

def c4FlowA : List String := ["b", "x"]

def c4FlowB : List String := ["x", "b"]

def c8Events : List UiEv := [⟨5, "A"⟩, ⟨3, "B"⟩, ⟨4, "B"⟩, ⟨9, "A"⟩, ⟨7, "C"⟩]

/-! # Theorems -/

/-! ## The boundary walk: ordering and disjointness (C2) -/

theorem scanEnd_some_bounds (cfg : BoundaryConfig) (rows : List Row) (i : Nat) :
    ∀ fuel j e, scanEnd cfg rows i fuel j = some e → j ≤ e ∧ e < rows.length := by
  intro fuel
  induction fuel with
  | zero => intro j e h; simp [scanEnd] at h
  | succ fuel ih =>
    intro j e h
    simp only [scanEnd] at h
    split at h
    · split at h
      · rename_i hlt _
        have hje : j = e := Option.some.inj h
        exact ⟨Nat.le_of_eq hje, hje ▸ hlt⟩
      · split at h
        · exact absurd h (by simp)
        · have := ih (j + 1) e h
          exact ⟨by omega, this.2⟩
    · exact absurd h (by simp)

theorem walkBounds_mem (cfg : BoundaryConfig) (rows : List Row) :
    ∀ fuel i p, p ∈ walkBounds cfg rows fuel i →
      i ≤ p.1 ∧ p.1 < p.2 ∧ p.2 < rows.length := by
  intro fuel
  induction fuel with
  | zero => intro i p h; simp [walkBounds] at h
  | succ fuel ih =>
    intro i p h
    simp only [walkBounds] at h
    split at h
    · split at h
      · split at h
        · rename_i e he
          rcases List.mem_cons.mp h with rfl | htail
          · have := scanEnd_some_bounds cfg rows i rows.length (i + 1) e he
            exact ⟨Nat.le_refl i, by omega, this.2⟩
          · have := ih (e + 1) p htail
            have hb := scanEnd_some_bounds cfg rows i rows.length (i + 1) e he
            exact ⟨by omega, this.2.1, this.2.2⟩
        · have := ih (i + 1) p h
          exact ⟨by omega, this.2.1, this.2.2⟩
      · have := ih (i + 1) p h
        exact ⟨by omega, this.2.1, this.2.2⟩
    · simp at h

theorem walkBounds_pairwise (cfg : BoundaryConfig) (rows : List Row) :
    ∀ fuel i, (walkBounds cfg rows fuel i).Pairwise (fun p q => p.2 < q.1) := by
  intro fuel
  induction fuel with
  | zero => intro i; simp [walkBounds]
  | succ fuel ih =>
    intro i
    simp only [walkBounds]
    split
    · split
      · split
        · rename_i e he
          refine List.Pairwise.cons ?_ (ih (e + 1))
          intro q hq
          have := walkBounds_mem cfg rows fuel (e + 1) q hq
          omega
        · exact ih (i + 1)
      · exact ih (i + 1)
    · exact List.Pairwise.nil

theorem scanEnd_oob (cfg : BoundaryConfig) (rows : List Row) (i : Nat) :
    ∀ fuel j, rows.length ≤ j → scanEnd cfg rows i fuel j = none := by
  intro fuel j h
  cases fuel with
  | zero => rfl
  | succ fuel => simp only [scanEnd]; rw [dif_neg (by omega)]

/-- The fuel argument of `scanEnd` is semantically irrelevant: any fuel
count no smaller than the remaining line count gives the same result, so
`rows.length` fuel renders the Python inner `while` loop exactly. -/
theorem scanEnd_fuel_irrel (cfg : BoundaryConfig) (rows : List Row) (i : Nat) :
    ∀ f1 f2 j, rows.length ≤ f1 + j → rows.length ≤ f2 + j →
      scanEnd cfg rows i f1 j = scanEnd cfg rows i f2 j := by
  intro f1
  induction f1 with
  | zero =>
    intro f2 j h1 _
    rw [show scanEnd cfg rows i 0 j = none from rfl, scanEnd_oob cfg rows i f2 j (by omega)]
  | succ f1 ih =>
    intro f2 j h1 h2
    cases f2 with
    | zero =>
      rw [show scanEnd cfg rows i 0 j = none from rfl,
        scanEnd_oob cfg rows i (f1 + 1) j (by omega)]
    | succ f2 =>
      simp only [scanEnd]
      by_cases hj : j < rows.length
      · rw [dif_pos hj, dif_pos hj, ih f2 (j + 1) (by omega) (by omega)]
      · rw [dif_neg hj, dif_neg hj]

theorem walkBounds_oob (cfg : BoundaryConfig) (rows : List Row) :
    ∀ fuel i, rows.length ≤ i → walkBounds cfg rows fuel i = [] := by
  intro fuel i h
  cases fuel with
  | zero => rfl
  | succ fuel => simp only [walkBounds]; rw [dif_neg (by omega)]

/-- The fuel argument of `walkBounds` is semantically irrelevant in the
same sense: the walk index strictly increases every iteration, so
`rows.length` fuel renders the Python outer `while` loop exactly. -/
theorem walkBounds_fuel_irrel (cfg : BoundaryConfig) (rows : List Row) :
    ∀ f1 f2 i, rows.length ≤ f1 + i → rows.length ≤ f2 + i →
      walkBounds cfg rows f1 i = walkBounds cfg rows f2 i := by
  intro f1
  induction f1 with
  | zero =>
    intro f2 i h1 _
    rw [show walkBounds cfg rows 0 i = [] from rfl, walkBounds_oob cfg rows f2 i (by omega)]
  | succ f1 ih =>
    intro f2 i h1 h2
    cases f2 with
    | zero =>
      rw [show walkBounds cfg rows 0 i = [] from rfl,
        walkBounds_oob cfg rows (f1 + 1) i (by omega)]
    | succ f2 =>
      simp only [walkBounds]
      by_cases hi : i < rows.length
      · rw [dif_pos hi, dif_pos hi]
        rcases he : scanEnd cfg rows i rows.length (i + 1) with _ | e
        · by_cases hs : isStartOrChain cfg (rows.get ⟨i, hi⟩) = true
          · rw [if_pos hs, if_pos hs]
            dsimp only
            rw [ih f2 (i + 1) (by omega) (by omega)]
          · rw [if_neg hs, if_neg hs, ih f2 (i + 1) (by omega) (by omega)]
        · have hb := scanEnd_some_bounds cfg rows i rows.length (i + 1) e he
          by_cases hs : isStartOrChain cfg (rows.get ⟨i, hi⟩) = true
          · rw [if_pos hs, if_pos hs]
            dsimp only
            rw [ih f2 (e + 1) (by omega) (by omega)]
          · rw [if_neg hs, if_neg hs, ih f2 (i + 1) (by omega) (by omega)]
      · rw [dif_neg hi, dif_neg hi]

/-- C2: for every boundary configuration with non-empty start and end id
lists, each emitted `(start_idx, end_idx)` pair of the single forward
boundary walk satisfies `start_idx < end_idx`, and the inclusive line
ranges of any two distinct emitted transactions are disjoint. -/
theorem boundary_walk_ordered_disjoint (cfg : BoundaryConfig) (rows : List Row)
    (_hstart : cfg.startKey ≠ []) (_hend : cfg.endKey ≠ []) :
    (∀ p ∈ findBounds cfg rows, p.1 < p.2) ∧
    (findBounds cfg rows).Pairwise
      (fun p q => ∀ k, ¬(p.1 ≤ k ∧ k ≤ p.2 ∧ q.1 ≤ k ∧ k ≤ q.2)) := by
  constructor
  · intro p hp
    exact (walkBounds_mem cfg rows rows.length 0 p hp).2.1
  · refine (walkBounds_pairwise cfg rows rows.length 0).imp ?_
    intro p q hpq k hk
    omega

/-- Witness for C2 at a concrete configuration and row list, where the
walk emits the single pair `(0, 1)`. -/
theorem boundary_walk_ordered_disjoint_witness : (0 : Nat) < 1 :=
  (boundary_walk_ordered_disjoint c2Cfg c2Rows (by decide) (by decide)).1
    (0, 1) (by decide)

/-! ## Scenario and duration properties of the extractor (C1, C5, C9) -/

/-- C1: on the three-line parsed input with `start_ids = ["3201"]`,
`end_ids = ["3220"]`, empty chaining list and the `COUT → Withdrawal`
mapping, extraction emits exactly one transaction with id `"00045"`,
type `"Withdrawal"`, end state `"Successful"` and duration `30.0`
seconds. -/
theorem extractor_scenario_c1 :
    (findAllTxns c1Cfg c1Rows "file").map
      (fun l => l.map (fun t => (t.txnId, t.txnType, t.endState, t.duration))) =
      .ok [(some "00045", "Withdrawal", "Successful", "30.0s")] := rfl

theorem mapExcept_ok_mem {α β : Type} (l : List α) (f : α → Except Unit β)
    (bs : List β) (h : mapExcept l f = .ok bs) (b : β) (hb : b ∈ bs) :
    ∃ a ∈ l, f a = .ok b := by
  induction l generalizing bs with
  | nil =>
    simp only [mapExcept] at h
    cases h
    simp at hb
  | cons a as ih =>
    simp only [mapExcept] at h
    rcases hfa : f a with e | b0
    · rw [hfa] at h; cases h
    · rw [hfa] at h
      rcases hrec : mapExcept as f with e2 | bs0
      · rw [hrec] at h; cases h
      · rw [hrec] at h
        cases h
        rcases List.mem_cons.mp hb with rfl | hbs
        · exact ⟨a, List.mem_cons_self a as, hfa⟩
        · obtain ⟨a', ha', hfa'⟩ := ih bs0 hrec hbs
          exact ⟨a', List.mem_cons_of_mem a ha', hfa'⟩

theorem durationField_spec (st et : Option Hms) :
    (∀ s e, st = some s → et = some e → durationField st et = durStr s e) ∧
    ((st = none ∨ et = none) → durationField st et = "N/A") := by
  constructor
  · intro s e hs he
    subst hs
    subst he
    rfl
  · intro h
    cases st with
    | none => rfl
    | some s1 =>
      cases et with
      | none => rfl
      | some e1 => rcases h with h | h <;> cases h

theorem mkRest_duration (cfg : BoundaryConfig) (dummy : String) (seg : List Row)
    (st : Option Hms) (tid? : Option String) :
    (mkRest cfg dummy seg st tid?).duration =
      durationField (mkRest cfg dummy seg st tid?).startTime
        (mkRest cfg dummy seg st tid?).endTime := rfl

theorem buildTxn_duration (cfg : BoundaryConfig) (dummy : String) (seg : List Row)
    (txn : Txn) (h : buildTxn cfg dummy seg = .ok txn) :
    txn.duration = durationField txn.startTime txn.endTime := by
  unfold buildTxn at h
  rcases h1 : cfg.startKey.findSome? (fun k => seg.find? (fun r => r.tid == some k)) with _ | r
  · rw [h1] at h
    dsimp only at h
    rcases h2 : cfg.chainKey.findSome? (fun k => seg.find? (fun r => r.tid == some k)) with _ | r2
    · rw [h2] at h
      cases h
      exact mkRest_duration cfg dummy seg none none
    · rw [h2] at h
      cases h
      exact mkRest_duration cfg dummy seg r2.ts _
  · rw [h1] at h
    dsimp only at h
    rcases h3 : startIdOf dummy r with e | pr
    · rw [h3] at h; cases h
    · rw [h3] at h
      obtain ⟨st, tidv⟩ := pr
      cases h
      exact mkRest_duration cfg dummy seg st tidv

/-- C5: every transaction the extractor emits reports, when both times
are present, `end - start` in seconds, plus 24 hours when that difference
is negative (midnight wraparound); when either time is missing the
duration is the unavailable marker `"N/A"`. -/
theorem emitted_duration_spec (cfg : BoundaryConfig) (rows : List Row) (dummy : String)
    (l : List Txn) (hok : findAllTxns cfg rows dummy = .ok l)
    (txn : Txn) (hmem : txn ∈ l) :
    (∀ s e, txn.startTime = some s → txn.endTime = some e →
      txn.duration =
        toString (if ((e.toSecs : Int) - (s.toSecs : Int)) < 0 then
            (e.toSecs : Int) - (s.toSecs : Int) + 24 * 3600
          else (e.toSecs : Int) - (s.toSecs : Int)).toNat ++ ".0s") ∧
    ((txn.startTime = none ∨ txn.endTime = none) → txn.duration = "N/A") := by
  obtain ⟨b, _, hb⟩ := mapExcept_ok_mem _ _ l hok txn hmem
  have hd := buildTxn_duration cfg dummy _ txn hb
  constructor
  · intro s e hs he
    rw [hd, hs, he]
    rfl
  · intro hmiss
    rcases hmiss with hmiss | hmiss <;> rw [hd, hmiss]
    · rfl
    · exact ((durationField_spec txn.startTime none).2 (Or.inr rfl))

/-- Witness for C5 at the concrete scenario input: the emitted record's
duration field is the wrapped difference of its two times, `30.0s`. -/
theorem emitted_duration_spec_witness : c5Txn.duration = "30.0s" := by
  have h := (emitted_duration_spec c5Cfg c5Rows "file" [c5Txn] rfl c5Txn
    (List.mem_singleton.mpr rfl)).1 ⟨9, 15, 0⟩ ⟨9, 15, 30⟩ rfl rfl
  exact h.trans rfl

/-- C9: a line whose time token has the `HH:MM:SS` shape but an invalid
hour parses to a null timestamp with its start TID still recognized; when
it opens a closed segment whose start message has no quoted
`Transaction no.` token, the synthesized id dereferences the null start
time and extraction aborts with an exception instead of a list. -/
theorem extraction_aborts_on_null_start_time :
    (c9Rows.map Row.ts).head? = some none ∧
    (c9Rows.map Row.tid).head? = some (some "3201") ∧
    findBounds c9Cfg c9Rows = [(0, 1)] ∧
    findAllTxns c9Cfg c9Rows "journal" = .error () :=
  ⟨rfl, rfl, rfl, rfl⟩

/-! ## The flow correlator (C8) -/

theorem collapseLoop_eq_dedup (l : List UiEv) :
    ∀ s : String, s :: collapseLoop l (some s) = dedupConsecutive (s :: l.map (·.screen)) := by
  induction l with
  | nil => intro s; rfl
  | cons ev rest ih =>
    intro s
    simp only [collapseLoop, List.map_cons, dedupConsecutive]
    by_cases hs : ev.screen = s
    · subst hs
      rw [if_neg (by simp), if_pos rfl]
      exact ih ev.screen
    · rw [if_pos (by simp [hs]), if_neg (fun h => hs h.symm)]
      exact congrArg (s :: ·) (ih ev.screen)

/-- C8: the screen flow for a window is exactly: events filtered to the
inclusive `[start, end]` window, ordered by time (a permutation of the
filtered events sorted by the time relation), screen names taken in that
order, consecutive repeats collapsed; an empty window gives `[]`. -/
theorem screen_flow_contract (df : List UiEv) (s e : Nat) :
    getScreenFlow df s e = screenFlowSpec df s e ∧
    (sortByTime (getEventsInTimerange df s e)).Perm (getEventsInTimerange df s e) ∧
    (sortByTime (getEventsInTimerange df s e)).Pairwise timeLe := by
  refine ⟨?_, List.perm_insertionSort timeLe _, List.sorted_insertionSort timeLe _⟩
  unfold getScreenFlow screenFlowSpec getEventsInTimerange sortByTime
  by_cases hlen : (df.filter (fun ev => s ≤ ev.t && ev.t ≤ e)).length = 0
  · rw [if_pos hlen]
    rw [List.length_eq_zero] at hlen
    rw [hlen]
    rfl
  · rw [if_neg hlen]
    rcases hsort : List.insertionSort timeLe (df.filter (fun ev => s ≤ ev.t && ev.t ≤ e))
      with _ | ⟨ev, rest⟩
    · have hp := List.perm_insertionSort timeLe (df.filter (fun ev => s ≤ ev.t && ev.t ≤ e))
      rw [hsort] at hp
      rw [← hp.length_eq] at hlen
      simp at hlen
    · simp only [collapseLoop, List.map_cons]
      rw [if_pos (by simp)]
      exact collapseLoop_eq_dedup rest ev.screen

/-- Witness for C8 at a concrete event list and window. -/
theorem screen_flow_contract_witness :
    getScreenFlow c8Events 3 9 = screenFlowSpec c8Events 3 9 :=
  (screen_flow_contract c8Events 3 9).1

/-! ## The aligner's backtrack tie-break (C4) -/

theorem lcsCell_zero_left (A B : List String) (j : Nat) : lcsCell A B 0 j = 0 := rfl

theorem lcsCell_succ_zero (A B : List String) (i : Nat) : lcsCell A B (i + 1) 0 = 0 := rfl

theorem lcsCell_succ_succ (A B : List String) (i j : Nat) :
    lcsCell A B (i + 1) (j + 1) =
      if A.get? i = B.get? j then lcsCell A B i j + 1
      else max (lcsCell A B i (j + 1)) (lcsCell A B (i + 1) j) := rfl

theorem btrack_zero_left (A B : List String) (j : Nat) : btrack A B 0 j = [] := rfl

theorem btrack_succ_zero (A B : List String) (i : Nat) : btrack A B (i + 1) 0 = [] := rfl

theorem btrack_succ_succ (A B : List String) (i j : Nat) :
    btrack A B (i + 1) (j + 1) =
      if A.get? i = B.get? j then (i, j) :: btrack A B i j
      else if lcsCell A B i (j + 1) > lcsCell A B (i + 1) j then btrack A B i (j + 1)
      else btrack A B (i + 1) j := rfl

/-- C4 counterexample: at the tie cell `(2, 2)` of the flows
`["b", "x"]` and `["x", "b"]` the elements differ and the cell above
equals the cell to the left, yet the backtrack continues like the cell to
the left (advancing B's pointer), not like the cell above (advancing A's
pointer) — the two continuations differ. -/
theorem lcs_tie_break_counterexample :
    c4FlowA.get? 1 ≠ c4FlowB.get? 1 ∧
    lcsCell c4FlowA c4FlowB 1 2 = lcsCell c4FlowA c4FlowB 2 1 ∧
    btrack c4FlowA c4FlowB 2 2 = btrack c4FlowA c4FlowB 2 1 ∧
    btrack c4FlowA c4FlowB 2 2 ≠ btrack c4FlowA c4FlowB 1 2 := by
  refine ⟨by decide, by decide, by decide, by decide⟩

/-- C4 amended: in the backtrack, whenever the current elements differ
and the cell above and the cell to the left hold equal values, the step
taken decrements B's index (moves left) — tie-breaking is deterministic
toward input B, not toward input A. -/
theorem lcs_tie_break_toward_b (A B : List String) (i j : Nat)
    (hne : A.get? i ≠ B.get? j)
    (htie : lcsCell A B i (j + 1) = lcsCell A B (i + 1) j) :
    btrack A B (i + 1) (j + 1) = btrack A B (i + 1) j := by
  rw [btrack_succ_succ, if_neg hne, if_neg (by omega)]

/-- Witness for the amended C4 at the concrete tie. -/
theorem lcs_tie_break_toward_b_witness :
    btrack c4FlowA c4FlowB 2 2 = btrack c4FlowA c4FlowB 2 1 :=
  lcs_tie_break_toward_b c4FlowA c4FlowB 1 1 (by decide) (by decide)

/-! ## Pass 1 of the UI event parser and the date-prefixed variant (C6) -/

/-- C6 counterexample: a line in the strict event shape is accepted by
Pass 1, and its date-prefixed variant still matches `pattern_with_date`
(so it is "otherwise valid"), yet Pass 1 rejects it: Pass 1 only tries
`pattern_no_date`. -/
theorem pass1_date_variant_counterexample :
    pass1Accept c6Undated = true ∧
    (uiMatchWithDate c6Dated.data).isSome = true ∧
    pass1Accept c6Dated = false :=
  ⟨rfl, rfl, rfl⟩

/-- C6 amended: every line opening with a two-digit token followed by a
slash — in particular every line carrying the `DD/MM/YYYY` date prefix —
is rejected by Pass 1, which matches the no-date pattern only; such lines
never yield a `UiEvent`. -/
theorem pass1_rejects_date_lead (s : String) (c1 c2 : Char) (rest : List Char)
    (hs : s.data = c1 :: c2 :: '/' :: rest)
    (h1 : isDigitCh c1 = true) (h2 : isDigitCh c2 = true) :
    pass1Accept s = false := by
  unfold pass1Accept uiMatchNoDate parseTimeShape
  rw [hs]
  simp [parse2Digits, h1, h2, expectCh, Option.bind]

/-- Witness for the amended C6 at the concrete dated line. -/
theorem pass1_rejects_date_lead_witness : pass1Accept c6Dated = false :=
  pass1_rejects_date_lead c6Dated '0' '1'
    "02/2024 09:15:00 123 GUIAPP > [42] - MainMenu result:{}".data rfl rfl rfl

/-! ## Forced TRC-Error classification for `.prn` files (C7) -/

theorem countHeaders_le_indicator (lines : List String) :
    countTrcErrorHeaders lines ≤ detectTrcErrorPattern lines := by
  unfold countTrcErrorHeaders detectTrcErrorPattern
  apply List.countP_mono_left
  intro l _ hl
  simp only [Bool.and_eq_true] at hl ⊢
  refine ⟨hl.1, ?_⟩
  unfold trcErrorLineIndicator
  rw [hl.2]
  rfl

theorem countHeaders_le_nonEmpty (lines : List String) :
    countTrcErrorHeaders lines ≤ lines.countP (fun l => stripStr l ≠ "") := by
  unfold countTrcErrorHeaders
  rw [List.countP_map]
  apply List.countP_mono_left
  intro l _ hl
  simp only [Function.comp, Bool.and_eq_true] at hl
  exact hl.1

/-- C7: a `.prn` file whose lines carry at least five strict TRC-Error
header matches is classified `TRC Error (.prn)` — unconditionally, hence
in particular even when the TRC-Trace indicator count exceeds the
TRC-Error indicator count. -/
theorem prn_header_priority (lines : List String)
    (h : 5 ≤ countTrcErrorHeaders lines) :
    detectFileType ".prn" lines = "TRC Error (.prn)" := by
  have h1 := countHeaders_le_indicator lines
  have h2 := countHeaders_le_nonEmpty lines
  have h3 : detectTrcErrorPattern lines ≤
      max (max (detectUiJournalPattern lines) (detectCustomerJournalPattern lines))
        (max (detectTrcTracePattern lines) (detectTrcErrorPattern lines)) :=
    le_max_of_le_right (le_max_right _ _)
  unfold detectFileType
  rw [if_neg (by decide)]
  rw [if_neg (by omega)]
  rw [if_neg (by omega)]
  rw [if_pos (by decide)]
  rw [if_pos (by omega)]

/-- Witness for C7: five concrete strict header lines. -/
theorem prn_header_priority_witness :
    detectFileType ".prn" c7Lines = "TRC Error (.prn)" :=
  prn_header_priority c7Lines (by decide)

/-! ## The router's registry bucket is filename-only (C10) -/

/-- C10: the router places a file in `registry_files` exactly when its
lowercased name ends in `.reg`, or ends in `.txt` and contains `reg` —
the content classifier never yields the registry bucket — and a file of
registry-style content under any other name is dropped from every
bucket. -/
theorem registry_routing_filename_only :
    (∀ (name : String) (lines : List String),
      detectCategory name lines = some "registry_files" ↔
        (strEndsWith (strToLower name) ".reg" = true ∨
         (strEndsWith (strToLower name) ".txt" &&
          strContains (strToLower name) "reg") = true)) ∧
    detectCategory "settings.log" c10Lines = none := by
  constructor
  · intro name lines
    unfold detectCategory
    by_cases h1 : strEndsWith (strToLower name) ".reg" = true
    · rw [if_pos h1]
      simp [h1]
    · rw [if_neg h1]
      by_cases h2 : (strEndsWith (strToLower name) ".txt" &&
          strContains (strToLower name) "reg") = true
      · rw [if_pos h2]
        simp [h2]
      · rw [if_neg h2]
        constructor
        · intro h
          exfalso
          simp only [] at h
          split at h
          · exact absurd (Option.some.inj h) (by decide)
          · split at h
            · exact absurd (Option.some.inj h) (by decide)
            · split at h
              · exact absurd (Option.some.inj h) (by decide)
              · split at h
                · exact absurd (Option.some.inj h) (by decide)
                · exact Option.noConfusion h
        · intro h
          rcases h with h | h
          · exact absurd h h1
          · exact absurd h h2
  · rfl

/-- Witness for C10 at a concrete `.reg` name. -/
theorem registry_routing_filename_only_witness :
    detectCategory "dump.reg" [] = some "registry_files" :=
  (registry_routing_filename_only.1 "dump.reg" []).mpr (Or.inl (by decide))

/-! ## LCS correctness of the aligner (C3) -/

theorem lcsLen_nil_right : ∀ X : List String, lcsLen X [] = 0 := by
  intro X; cases X <;> rfl

theorem lcsLen_cons_cons (a b : String) (as bs : List String) :
    lcsLen (a :: as) (b :: bs) =
      if a = b then lcsLen as bs + 1
      else max (lcsLen as (b :: bs)) (lcsLen (a :: as) bs) := rfl

theorem tail_sublist_of_cons_sublist_cons {x a : String} {c' X' : List String}
    (h : (x :: c').Sublist (a :: X')) : c'.Sublist X' := by
  rcases List.sublist_cons_iff.mp h with h' | ⟨r, hr, hrs⟩
  · exact (List.sublist_cons_self x c').trans h'
  · cases hr
    exact hrs

theorem length_le_lcsLen :
    ∀ X Y c : List String, c.Sublist X → c.Sublist Y → c.length ≤ lcsLen X Y := by
  intro X
  induction X with
  | nil =>
    intro Y c hX _
    rw [List.sublist_nil.mp hX]
    exact Nat.zero_le _
  | cons a X' ihX =>
    intro Y
    induction Y with
    | nil =>
      intro c _ hY
      rw [List.sublist_nil.mp hY, lcsLen_nil_right]
      simp
    | cons b Y' ihY =>
      intro c hX hY
      rw [lcsLen_cons_cons]
      by_cases hab : a = b
      · rw [if_pos hab]
        cases c with
        | nil => exact Nat.zero_le _
        | cons x c' =>
          have := ihX Y' c' (tail_sublist_of_cons_sublist_cons hX)
            (tail_sublist_of_cons_sublist_cons hY)
          simpa using Nat.succ_le_succ this
      · rw [if_neg hab]
        cases c with
        | nil => exact Nat.zero_le _
        | cons x c' =>
          rcases List.sublist_cons_iff.mp hX with hX' | ⟨r, hr, hrs⟩
          · exact le_max_of_le_left (ihX (b :: Y') _ hX' hY)
          · rcases List.sublist_cons_iff.mp hY with hY' | ⟨r2, hr2, hrs2⟩
            · exact le_max_of_le_right (ihY _ hX hY')
            · exfalso
              apply hab
              have hx1 : x = a := (List.cons.injEq .. ▸ hr).1
              have hx2 : x = b := (List.cons.injEq .. ▸ hr2).1
              rw [← hx1, hx2]

theorem lcsCell_eq_lcsLen (A B : List String) :
    ∀ i, i ≤ A.length → ∀ j, j ≤ B.length →
      lcsCell A B i j = lcsLen ((A.take i).reverse) ((B.take j).reverse) := by
  intro i
  induction i with
  | zero =>
    intro _ j _
    rfl
  | succ i ihi =>
    intro hi j
    induction j with
    | zero =>
      intro _
      rw [lcsCell_succ_zero, List.take_zero, List.reverse_nil, lcsLen_nil_right]
    | succ j ihj =>
      intro hj
      have hiA : i < A.length := by omega
      have hjB : j < B.length := by omega
      have hA : (A.take (i + 1)).reverse = A[i] :: (A.take i).reverse := by
        rw [List.take_succ, List.getElem?_eq_getElem hiA]
        simp
      have hB : (B.take (j + 1)).reverse = B[j] :: (B.take j).reverse := by
        rw [List.take_succ, List.getElem?_eq_getElem hjB]
        simp
      have hget : (A.get? i = B.get? j) ↔ (A[i] = B[j]) := by
        rw [List.get?_eq_getElem?, List.get?_eq_getElem?,
          List.getElem?_eq_getElem hiA, List.getElem?_eq_getElem hjB]
        simp
      rw [lcsCell_succ_succ, hA, hB, lcsLen_cons_cons]
      by_cases hab : A[i] = B[j]
      · rw [if_pos (hget.mpr hab), if_pos hab, ihi (by omega) j (by omega)]
      · rw [if_neg (fun hc => hab (hget.mp hc)), if_neg hab]
        have e1 : lcsCell A B i (j + 1) =
            lcsLen ((A.take i).reverse) (B[j] :: (B.take j).reverse) := by
          rw [ihi (by omega) (j + 1) hj, hB]
        have e2 : lcsCell A B (i + 1) j =
            lcsLen (A[i] :: (A.take i).reverse) ((B.take j).reverse) := by
          rw [ihj (by omega), hA]
        rw [e1, e2]

theorem btrack_mem (A B : List String) :
    ∀ i j, ∀ p ∈ btrack A B i j, p.1 < i ∧ p.2 < j ∧ A.get? p.1 = B.get? p.2 := by
  intro i
  induction i with
  | zero =>
    intro j p hp
    rw [btrack_zero_left] at hp
    cases hp
  | succ i ihi =>
    intro j
    induction j with
    | zero =>
      intro p hp
      rw [btrack_succ_zero] at hp
      cases hp
    | succ j ihj =>
      intro p hp
      rw [btrack_succ_succ] at hp
      by_cases heq : A.get? i = B.get? j
      · rw [if_pos heq] at hp
        rcases List.mem_cons.mp hp with rfl | htail
        · exact ⟨Nat.lt_succ_self i, Nat.lt_succ_self j, heq⟩
        · have := ihi j p htail
          exact ⟨Nat.lt_succ_of_lt this.1, Nat.lt_succ_of_lt this.2.1, this.2.2⟩
      · rw [if_neg heq] at hp
        by_cases hgt : lcsCell A B i (j + 1) > lcsCell A B (i + 1) j
        · rw [if_pos hgt] at hp
          have := ihi (j + 1) p hp
          exact ⟨Nat.lt_succ_of_lt this.1, this.2.1, this.2.2⟩
        · rw [if_neg hgt] at hp
          have := ihj p hp
          exact ⟨this.1, Nat.lt_succ_of_lt this.2.1, this.2.2⟩

theorem maskFst_length (n : Nat) (P : List (Nat × Nat)) : (maskFst n P).length = n := by
  simp [maskFst]

theorem maskSnd_length (n : Nat) (P : List (Nat × Nat)) : (maskSnd n P).length = n := by
  simp [maskSnd]

theorem maskFst_succ (n : Nat) (P : List (Nat × Nat)) :
    maskFst (n + 1) P = maskFst n P ++ [P.any (fun p => p.1 == n)] := by
  unfold maskFst
  rw [List.range_succ, List.map_append]
  rfl

theorem maskSnd_succ (n : Nat) (P : List (Nat × Nat)) :
    maskSnd (n + 1) P = maskSnd n P ++ [P.any (fun p => p.2 == n)] := by
  unfold maskSnd
  rw [List.range_succ, List.map_append]
  rfl

theorem maskFst_cons_ge (n : Nat) (q : Nat × Nat) (P : List (Nat × Nat)) (hq : n ≤ q.1) :
    maskFst n (q :: P) = maskFst n P := by
  unfold maskFst
  apply List.map_congr_left
  intro k hk
  rw [List.mem_range] at hk
  simp only [List.any_cons]
  have hne : (q.1 == k) = false := by
    rw [beq_eq_false_iff_ne]
    omega
  rw [hne, Bool.false_or]

theorem maskSnd_cons_ge (n : Nat) (q : Nat × Nat) (P : List (Nat × Nat)) (hq : n ≤ q.2) :
    maskSnd n (q :: P) = maskSnd n P := by
  unfold maskSnd
  apply List.map_congr_left
  intro k hk
  rw [List.mem_range] at hk
  simp only [List.any_cons]
  have hne : (q.2 == k) = false := by
    rw [beq_eq_false_iff_ne]
    omega
  rw [hne, Bool.false_or]

theorem any_fst_eq_false (n : Nat) (P : List (Nat × Nat)) (h : ∀ p ∈ P, p.1 ≠ n) :
    P.any (fun p => p.1 == n) = false := by
  rw [List.any_eq_false]
  intro p hp
  simpa using h p hp

theorem any_snd_eq_false (n : Nat) (P : List (Nat × Nat)) (h : ∀ p ∈ P, p.2 ≠ n) :
    P.any (fun p => p.2 == n) = false := by
  rw [List.any_eq_false]
  intro p hp
  simpa using h p hp

theorem masked_nil_left (mask : List Bool) : masked [] mask = [] := by
  cases mask <;> rfl

theorem masked_nil_right (l : List String) : masked l [] = [] := by
  cases l <;> rfl

theorem masked_cons (a : String) (l : List String) (b : Bool) (m : List Bool) :
    masked (a :: l) (b :: m) = if b then a :: masked l m else masked l m := by
  cases b <;> rfl

theorem masked_append (l1 l2 : List String) (m1 m2 : List Bool)
    (h : l1.length = m1.length) :
    masked (l1 ++ l2) (m1 ++ m2) = masked l1 m1 ++ masked l2 m2 := by
  unfold masked
  rw [List.zip_append h, List.filterMap_append]

theorem masked_all_false (l : List String) :
    ∀ mask, (∀ b ∈ mask, b = false) → masked l mask = [] := by
  induction l with
  | nil => intro mask _; exact masked_nil_left mask
  | cons a l ih =>
    intro mask hm
    cases mask with
    | nil => rfl
    | cons b m =>
      rw [masked_cons, hm b (List.mem_cons_self b m), if_neg (by simp)]
      exact ih m (fun x hx => hm x (List.mem_cons_of_mem b hx))

theorem masked_sublist (l : List String) : ∀ mask, (masked l mask).Sublist l := by
  induction l with
  | nil =>
    intro mask
    rw [masked_nil_left]
  | cons a l ih =>
    intro mask
    cases mask with
    | nil => rw [masked_nil_right]; exact List.nil_sublist _
    | cons b m =>
      rw [masked_cons]
      cases b
      · exact (ih m).trans (List.sublist_cons_self a l)
      · exact List.cons_sublist_cons.mpr (ih m)

theorem masked_count (l : List String) :
    ∀ mask, l.length = mask.length → (masked l mask).length = mask.count true := by
  induction l with
  | nil =>
    intro mask h
    have hm : mask = [] := by
      cases mask
      · rfl
      · simp at h
    subst hm
    rfl
  | cons a l ih =>
    intro mask h
    cases mask with
    | nil => simp at h
    | cons b m =>
      have h' : l.length = m.length := by simpa using h
      rw [masked_cons]
      cases b
      · simp [ih m h', List.count_cons]
      · simp [ih m h', List.count_cons]

theorem btrack_masks_main (A B : List String) :
    ∀ i, i ≤ A.length → ∀ j, j ≤ B.length →
      masked (A.take i) (maskFst i (btrack A B i j)) =
        masked (B.take j) (maskSnd j (btrack A B i j)) ∧
      (masked (A.take i) (maskFst i (btrack A B i j))).length = lcsCell A B i j := by
  intro i
  induction i with
  | zero =>
    intro _ j _
    rw [btrack_zero_left]
    constructor
    · rw [List.take_zero, masked_nil_left]
      symm
      apply masked_all_false
      intro b hb
      unfold maskSnd at hb
      rcases List.mem_map.mp hb with ⟨k, _, hk⟩
      simpa using hk.symm
    · rw [List.take_zero, masked_nil_left]
      rfl
  | succ i ihi =>
    intro hi j
    induction j with
    | zero =>
      intro _
      rw [btrack_succ_zero]
      have hL : masked (A.take (i + 1)) (maskFst (i + 1) []) = [] := by
        apply masked_all_false
        intro b hb
        unfold maskFst at hb
        rcases List.mem_map.mp hb with ⟨k, _, hk⟩
        simpa using hk.symm
      constructor
      · rw [hL, List.take_zero, masked_nil_left]
      · rw [hL]
        rfl
    | succ j ihj =>
      intro hj
      have hiA : i < A.length := by omega
      have hjB : j < B.length := by omega
      have hA : A.take (i + 1) = A.take i ++ [A[i]] := by
        rw [List.take_succ, List.getElem?_eq_getElem hiA]
        rfl
      have hB : B.take (j + 1) = B.take j ++ [B[j]] := by
        rw [List.take_succ, List.getElem?_eq_getElem hjB]
        rfl
      have hlenA : (A.take i).length = i := by
        rw [List.length_take]
        omega
      have hlenB : (B.take j).length = j := by
        rw [List.length_take]
        omega
      rw [btrack_succ_succ]
      by_cases heq : A.get? i = B.get? j
      · rw [if_pos heq]
        have hab : A[i] = B[j] := by
          rw [List.get?_eq_getElem?, List.get?_eq_getElem?,
            List.getElem?_eq_getElem hiA, List.getElem?_eq_getElem hjB] at heq
          exact Option.some.inj heq
        have hmem := btrack_mem A B i j
        have hFst : maskFst (i + 1) ((i, j) :: btrack A B i j) =
            maskFst i (btrack A B i j) ++ [true] := by
          rw [maskFst_succ, maskFst_cons_ge i (i, j) _ (le_refl i)]
          congr 1
          simp
        have hSnd : maskSnd (j + 1) ((i, j) :: btrack A B i j) =
            maskSnd j (btrack A B i j) ++ [true] := by
          rw [maskSnd_succ, maskSnd_cons_ge j (i, j) _ (le_refl j)]
          congr 1
          simp
        obtain ⟨ihEq, ihLen⟩ := ihi (by omega) j (by omega)
        rw [hA, hB, hFst, hSnd,
          masked_append _ _ _ _ (by rw [hlenA, maskFst_length]),
          masked_append _ _ _ _ (by rw [hlenB, maskSnd_length])]
        constructor
        · rw [ihEq, show masked [A[i]] [true] = [A[i]] from rfl,
            show masked [B[j]] [true] = [B[j]] from rfl, hab]
        · rw [List.length_append, ihLen, lcsCell_succ_succ, if_pos heq]
          rfl
      · rw [if_neg heq]
        by_cases hgt : lcsCell A B i (j + 1) > lcsCell A B (i + 1) j
        · rw [if_pos hgt]
          have hbnd := btrack_mem A B i (j + 1)
          have hFst : maskFst (i + 1) (btrack A B i (j + 1)) =
              maskFst i (btrack A B i (j + 1)) ++ [false] := by
            rw [maskFst_succ]
            congr 1
            rw [any_fst_eq_false]
            intro p hp
            have := (hbnd p hp).1
            omega
          obtain ⟨ihEq, ihLen⟩ := ihi (by omega) (j + 1) hj
          rw [hA, hFst, masked_append _ _ _ _ (by rw [hlenA, maskFst_length]),
            show masked [A[i]] [false] = [] from rfl, List.append_nil]
          constructor
          · exact ihEq
          · rw [ihLen, lcsCell_succ_succ, if_neg heq,
              Nat.max_eq_left (Nat.le_of_lt hgt)]
        · rw [if_neg hgt]
          have hbnd := btrack_mem A B (i + 1) j
          have hSnd : maskSnd (j + 1) (btrack A B (i + 1) j) =
              maskSnd j (btrack A B (i + 1) j) ++ [false] := by
            rw [maskSnd_succ]
            congr 1
            rw [any_snd_eq_false]
            intro p hp
            have := (hbnd p hp).2.1
            omega
          obtain ⟨ihEq, ihLen⟩ := ihj (by omega)
          rw [hB, hSnd, masked_append _ _ _ _ (by rw [hlenB, maskSnd_length]),
            show masked [B[j]] [false] = [] from rfl, List.append_nil]
          constructor
          · exact ihEq
          · rw [ihLen, lcsCell_succ_succ, if_neg heq,
              Nat.max_eq_right (Nat.not_lt.mp hgt)]

/-- C3: the aligner's two masks have the input lengths, mark equally many
positions on both sides, select equal subsequences of the two flows (a
common subsequence), and no longer common subsequence exists. -/
theorem aligner_lcs_correct (A B : List String) :
    (findLcsMatches A B).1.length = A.length ∧
    (findLcsMatches A B).2.length = B.length ∧
    (findLcsMatches A B).1.count true = (findLcsMatches A B).2.count true ∧
    (masked A (findLcsMatches A B).1).Sublist A ∧
    (masked B (findLcsMatches A B).2).Sublist B ∧
    masked A (findLcsMatches A B).1 = masked B (findLcsMatches A B).2 ∧
    (∀ c : List String, c.Sublist A → c.Sublist B →
      c.length ≤ (findLcsMatches A B).1.count true) := by
  obtain ⟨hmEq, hmLen⟩ := btrack_masks_main A B A.length (le_refl _) B.length (le_refl _)
  rw [List.take_length, List.take_length] at hmEq
  rw [List.take_length] at hmLen
  have h1 : (findLcsMatches A B).1 = maskFst A.length (btrack A B A.length B.length) := rfl
  have h2 : (findLcsMatches A B).2 = maskSnd B.length (btrack A B A.length B.length) := rfl
  rw [h1, h2]
  have hc1 : (maskFst A.length (btrack A B A.length B.length)).count true =
      (masked A (maskFst A.length (btrack A B A.length B.length))).length :=
    (masked_count A _ (by rw [maskFst_length])).symm
  have hc2 : (maskSnd B.length (btrack A B A.length B.length)).count true =
      (masked B (maskSnd B.length (btrack A B A.length B.length))).length :=
    (masked_count B _ (by rw [maskSnd_length])).symm
  refine ⟨maskFst_length _ _, maskSnd_length _ _, ?_, masked_sublist A _,
    masked_sublist B _, hmEq, ?_⟩
  · rw [hc1, hc2, hmEq]
  · intro c hcA hcB
    rw [hc1, hmLen,
      lcsCell_eq_lcsLen A B A.length (le_refl _) B.length (le_refl _),
      List.take_length, List.take_length]
    have := length_le_lcsLen A.reverse B.reverse c.reverse
      (List.reverse_sublist.mpr hcA) (List.reverse_sublist.mpr hcB)
    simpa using this

/-- Witness for C3 at the specification's example flows: `Login`, `Menu`,
`Receipt` are selected on both sides. -/
theorem aligner_lcs_correct_witness :
    masked c3FlowA (findLcsMatches c3FlowA c3FlowB).1 =
      masked c3FlowB (findLcsMatches c3FlowA c3FlowB).2 :=
  (aligner_lcs_correct c3FlowA c3FlowB).2.2.2.2.2.1

end LogCore
